/-
Verification of the core logic of the PersonalizedExam app (src/app.py).

The app loads an attempt log (`processed_data.csv`) and an association-rule
table (`fp_growth_rules.csv`) into memory, guards a login by membership of the
entered student id in the attempt log, computes weak-topic recommendations by
matching rule antecedents with pandas `Series.str.contains`, samples a short
exam from the attempt log, and on submission scores the answers and appends
the synthesized rows back to the log.

The embedding below translates that logic over lists of records.  Randomness
(`random.randint` and `DataFrame.sample`) is embedded by passing an explicit
stream of natural numbers `r : Nat → Nat`; the draws the Python library can
produce are exactly the values the embedded functions produce as `r` ranges
over all streams.  pandas `Series.str.contains` interprets its pattern as a
regular expression (the `regex=True` default); the embedding executes the
fragment of Python regex syntax made of literal characters plus the two
metacharacters `.` (any character) and `+` (one or more of the previous
atom), where it reproduces `re.search` exactly, and `isMeta` records the
full Python metacharacter set: every theorem that identifies matching with
literal substring containment assumes the pattern free of that whole set,
so no result depends on the fragment's treatment of the metacharacters it
does not execute.  A failing pandas call (`DataFrame.sample` asked for more
rows than exist raises `ValueError`) is embedded as `Option.none`.
-/
import Mathlib

set_option autoImplicit false

namespace PersonalizedExam

/-- Attempt: one row of `processed_data.csv`, the attempt log (spec §3).
`is_correct` and `score` are the 0/1 integers the code stores. -/
structure Attempt where
  student_id : String
  question_id : String
  topic : String
  difficulty : String
  question_type : String
  student_answer : String
  correct_answer : String
  is_correct : Nat
  score : Nat
  time_spent : Nat
deriving DecidableEq

/-- Rule: one row of `fp_growth_rules.csv`.  Only the `antecedents` column is
consumed by the code (src/app.py line 148); the other mined-rule metrics are
never read, so they are omitted from the embedding. -/
structure Rule where
  antecedents : String
deriving DecidableEq

/- ### pandas `Series.str.contains` (regex fragment) -/

/-- charMatch: one regex atom against one character; `.` matches anything. -/
def charMatch (p c : Char) : Bool :=
  p == '.' || p == c

/-- isMeta: the full Python regex metacharacter set — `. + * ? | ( ) [ ]`,
the two braces, `^ $ \`.  Every theorem below that equates pattern matching
with literal containment hypothesizes the pattern free of ALL of these
characters, which is the region where the executable fragment (literal
characters, `.`, `+`) reproduces Python `re.search` exactly; patterns
holding one of the remaining metacharacters are outside every such
guarantee. -/
def isMeta (c : Char) : Bool :=
  c == '.' || c == '+' || c == '*' || c == '?' || c == '|' ||
  c == '(' || c == ')' || c == '[' || c == ']' ||
  c == '\x7b' || c == '\x7d' || c == '^' || c == '$' || c == '\\'

/-- tokenize: compile a pattern into atoms, where an atom followed by `+`
becomes a one-or-more token. -/
def tokenize : List Char → List (Char × Bool)
  | [] => []
  | [p] => [(p, false)]
  | p :: q :: rest =>
      if q = '+' then (p, true) :: tokenize rest
      else (p, false) :: tokenize (q :: rest)

/-- tmatchGo: match a token list against the front of a text.  A `(p, true)`
token consumes one or more characters matching `p`, backtracking as Python's
`re` does on this fragment. -/
def tmatchGo : List Char → List (Char × Bool) → Bool
  | _, [] => true
  | [], _ :: _ => false
  | c :: cs, (p, false) :: ts => charMatch p c && tmatchGo cs ts
  | c :: cs, (p, true) :: ts =>
      charMatch p c && (tmatchGo cs ((p, true) :: ts) || tmatchGo cs ts)

/-- reSearch: `re.search` on the fragment — try the match at every start
position of the text, including the empty suffix. -/
def reSearch (ts : List (Char × Bool)) : List Char → Bool
  | [] => tmatchGo [] ts
  | c :: cs => tmatchGo (c :: cs) ts || reSearch ts cs

/-- str_contains: pandas `Series.str.contains` applied to one cell, with the
default `regex=True` and `case=True` — a regex search of `pat` in `s`
(src/app.py line 148).  The executable fragment implements literal
characters plus the metacharacters `.` and `+`, where it reproduces Python
`re.search` exactly (both concrete counterexamples below live in this
fragment); it treats the remaining Python metacharacters literally, and
every positive theorem relating matching to literal containment therefore
assumes the pattern free of the whole `isMeta` set, never relying on the
fragment's behaviour outside it. -/
def str_contains (s pat : String) : Bool :=
  reSearch (tokenize pat.data) s.data

/-- literalContains: plain character-for-character substring containment.
Modelled from the spec: spec §4.1 describes the rule test as containment of
the literal substring, every character taken literally; this definition
exists to be compared against the source-derived `str_contains`. -/
def literalContains : List Char → List Char → Bool
  | [], pat => pat.isEmpty
  | c :: cs, pat => pat.isPrefixOf (c :: cs) || literalContains cs pat

/- ### Recommendation resolver -/

/-- uniqueAux: first-occurrence deduplication with an accumulator of values
already seen. -/
def uniqueAux (seen : List String) : List String → List String
  | [] => []
  | x :: xs =>
      if x ∈ seen then uniqueAux seen xs
      else x :: uniqueAux (x :: seen) xs

/-- uniqueKeepFirst: pandas `Series.unique` — distinct values in order of
first occurrence. -/
def uniqueKeepFirst (l : List String) : List String :=
  uniqueAux [] l

/-- get_recommendations: src/app.py lines 140-152.  Weak topics are the
distinct topics of the student's incorrect attempts; a topic is kept when at
least one rule's `antecedents` matches the pattern `"Topic_" ++ topic` under
`str_contains`.  The Python code returns `list(set(...))` whose order is
unspecified; the embedding determinizes it as the order-preserving filter of
the weak-topic list, which is equal as a set. -/
def get_recommendations (student_id : String) (df : List Attempt)
    (rules : List Rule) : List String :=
  let weak_topics :=
    uniqueKeepFirst
      ((df.filter (fun a => a.student_id == student_id && a.is_correct == 0)).map
        (fun a => a.topic))
  weak_topics.filter (fun topic =>
    rules.any (fun rule => str_contains rule.antecedents ("Topic_" ++ topic)))

/- ### Exam sampling -/

/-- drawSample: draw `n` rows without replacement — repeatedly pick a random
position in the remaining rows and remove it.  This is the support of pandas
`DataFrame.sample(n)` as the stream `r` ranges over all values. -/
def drawSample (r : Nat → Nat) : Nat → Nat → List Attempt → List Attempt
  | _, 0, _ => []
  | _, _ + 1, [] => []
  | i, m + 1, a :: as =>
      let k := r i % (a :: as).length
      (a :: as).getD k a :: drawSample r (i + 1) m ((a :: as).eraseIdx k)

/-- sampleRows: pandas `DataFrame.sample(n)` — raises `ValueError` (embedded
as `none`) when `n` exceeds the number of rows, otherwise draws `n` rows
without replacement. -/
def sampleRows (rows : List Attempt) (n : Nat) (r : Nat → Nat) :
    Option (List Attempt) :=
  if n ≤ rows.length then some (drawSample r 0 n rows) else none

/-- examCandidates: src/app.py lines 274-280.  When the resolver returns no
topics the code falls back to all distinct topics of the pool, then keeps the
pool rows whose topic is in the chosen topic list. -/
def examCandidates (student : String) (df : List Attempt)
    (rules : List Rule) : List Attempt :=
  let recs := get_recommendations student df rules
  let recs2 := if recs.isEmpty then uniqueKeepFirst (df.map (fun a => a.topic))
               else recs
  df.filter (fun row => recs2.contains row.topic)

/-- examQuestions: src/app.py line 280 —
`df[df["topic"].isin(recs)].sample(min(5, len(df)))`.  Note the sample size
is clamped by the length of the full table `df`, not by the length of the
filtered candidate frame. -/
def examQuestions (student : String) (df : List Attempt) (rules : List Rule)
    (r : Nat → Nat) : Option (List Attempt) :=
  sampleRows (examCandidates student df rules) (min 5 df.length) r

/- ### Submission -/

/-- randint: Python `random.randint lo hi` — an arbitrary integer in the
inclusive range `[lo, hi]`, embedded by reducing the stream value into the
range. -/
def randint (lo hi : Nat) (t : Nat) : Nat :=
  lo + t % (hi - lo + 1)

/-- newRow: the dictionary appended per answered question, src/app.py lines
321-332.  `t` is the stream value feeding `random.randint(15, 60)`. -/
def newRow (student : String) (row : Attempt) (user_answer : String)
    (t : Nat) : Attempt :=
  { student_id := student
    question_id := row.question_id
    topic := row.topic
    difficulty := row.difficulty
    question_type := row.question_type
    student_answer := user_answer
    correct_answer := row.correct_answer
    is_correct := if user_answer == row.correct_answer then 1 else 0
    score := if user_answer == row.correct_answer then 1 else 0
    time_spent := randint 15 60 t }

/-- new_rows: the list of synthesized rows of one submission, walking the
session's questions with a running index `i` that keys the answers mapping
and the randomness stream (src/app.py lines 312-332; the Python dict is
keyed by the row's frame index, which enumerates the session's questions
one-to-one, so the embedding keys it by position). -/
def new_rows (student : String) (answers : Nat → String) (r : Nat → Nat) :
    Nat → List Attempt → List Attempt
  | _, [] => []
  | i, q :: qs =>
      newRow student q (answers i) (r i) :: new_rows student answers r (i + 1) qs

/-- correct_count: src/app.py lines 313-319 — count the questions whose
selected answer equals the stored `correct_answer` exactly. -/
def correct_count (answers : Nat → String) : Nat → List Attempt → Nat
  | _, [] => 0
  | i, q :: qs =>
      (if answers i == q.correct_answer then 1 else 0) + correct_count answers (i + 1) qs

/-- exam_score: src/app.py line 337 — `(correct_count / len(exam_questions)) * 100`. -/
def exam_score (c n : Nat) : ℚ :=
  ((c : ℚ) / (n : ℚ)) * 100

/-- pd_concat: `pd.concat([df, pd.DataFrame(new_rows)], ignore_index=True)`,
src/app.py line 334 — the old table followed by the new rows. -/
def pd_concat (df new : List Attempt) : List Attempt :=
  df ++ new

/-- CsvFile: the durable backing file of the Attempt Store.  The embedding
models the store at the record level; the CSV text encoding itself is out of
scope. -/
structure CsvFile where
  rows : List Attempt

/-- to_csv: `df.to_csv("processed_data.csv", index=False)`, src/app.py line 335. -/
def to_csv (df : List Attempt) : CsvFile :=
  ⟨df⟩

/-- read_csv: `pd.read_csv("processed_data.csv")`, src/app.py line 102. -/
def read_csv (f : CsvFile) : List Attempt :=
  f.rows

/- ### App shell: login guard and page dispatch -/

/-- Page: the four destinations of the sidebar navigation, src/app.py line 131. -/
inductive Page
  | dashboard
  | analytics
  | takeExam
  | aiRecommendations
deriving DecidableEq

/-- PageOut: what each page computes from the data (the rendered values the
claims are about; pure chart drawing carries no further data flow). -/
inductive PageOut
  | dashboard (total_score : Nat) (total_attempts : Nat)
  | analytics
  | exam (questions : Option (List Attempt))
  | recs (topics : List String)
deriving DecidableEq

/-- invalidStudentMsg: the rejection shown at src/app.py line 123. -/
def invalidStudentMsg : String :=
  "❌ Invalid Student ID. Please try again!"

/-- renderPage: the per-page computation performed after a successful login
(src/app.py lines 157-381, data flow only). -/
def renderPage (student : String) (df : List Attempt) (rules : List Rule)
    (page : Page) (r : Nat → Nat) : PageOut :=
  match page with
  | Page.dashboard =>
      let student_df := df.filter (fun a => a.student_id == student)
      PageOut.dashboard ((student_df.map (fun a => a.score)).sum) student_df.length
  | Page.analytics => PageOut.analytics
  | Page.takeExam => PageOut.exam (examQuestions student df rules r)
  | Page.aiRecommendations => PageOut.recs (get_recommendations student df rules)

/-- runApp: the top-level control flow, src/app.py lines 111-135.  An empty
input stops with the welcome screen (`ok none`); an identifier absent from
the attempt log's `student_id` column stops with the error message; otherwise
the requested page is computed. -/
def runApp (student_id : String) (df : List Attempt) (rules : List Rule)
    (page : Page) (r : Nat → Nat) : Except String (Option PageOut) :=
  if student_id = "" then Except.ok none
  else if (df.map (fun a => a.student_id)).contains student_id then
    Except.ok (some (renderPage student_id df rules page r))
  else Except.error invalidStudentMsg

/-- countRow: multiplicity of a row in a list of rows (used to state that
sampling is without replacement over rows). -/
def countRow (x : Attempt) : List Attempt → Nat
  | [] => 0
  | a :: l => (if a = x then 1 else 0) + countRow x l

/- ### Lemmas: the regex fragment degenerates to literal containment on
metacharacter-free patterns -/

theorem isPrefixOf_nil (pat : List Char) : pat.isPrefixOf [] = pat.isEmpty := by
  cases pat <;> rfl

theorem isMeta_false_dot {c : Char} (h : isMeta c = false) : (c == '.') = false := by
  rcases eq_or_ne c '.' with rfl | hne
  · exact absurd h (by decide)
  · exact beq_eq_false_iff_ne.mpr hne

theorem isMeta_false_plus {c : Char} (h : isMeta c = false) : (c == '+') = false := by
  rcases eq_or_ne c '+' with rfl | hne
  · exact absurd h (by decide)
  · exact beq_eq_false_iff_ne.mpr hne

theorem tokenize_no_plus (l : List Char) (h : ∀ c ∈ l, (c == '+') = false) :
    tokenize l = l.map (fun c => (c, false)) := by
  induction l with
  | nil => rfl
  | cons p rest ih =>
    cases rest with
    | nil => rfl
    | cons q rest2 =>
      have hq : ¬ (q = '+') := by simpa using h q (by simp)
      have ih2 := ih (fun c hc => h c (by simp [hc]))
      simp [tokenize, hq, ih2]

theorem tmatchGo_no_meta (pat : List Char) (h : ∀ c ∈ pat, isMeta c = false) :
    ∀ s : List Char, tmatchGo s (pat.map (fun c => (c, false))) = pat.isPrefixOf s := by
  induction pat with
  | nil => intro s; cases s <;> rfl
  | cons p pat2 ih =>
    intro s
    have hp : (p == '.') = false := isMeta_false_dot (h p (by simp))
    have ih2 := ih (fun c hc => h c (by simp [hc]))
    cases s with
    | nil => rfl
    | cons c cs =>
      simp [tmatchGo, charMatch, List.isPrefixOf, hp, ih2]

theorem reSearch_literal (pat : List Char) (h : ∀ c ∈ pat, isMeta c = false) :
    ∀ text : List Char, reSearch (tokenize pat) text = literalContains text pat := by
  have hplus : ∀ c ∈ pat, (c == '+') = false := fun c hc =>
    isMeta_false_plus (h c hc)
  intro text
  induction text with
  | nil =>
    simp only [reSearch, literalContains, tokenize_no_plus pat hplus,
      tmatchGo_no_meta pat h, isPrefixOf_nil]
  | cons c cs ih =>
    simp only [reSearch, literalContains, tokenize_no_plus pat hplus,
      tmatchGo_no_meta pat h] at ih ⊢
    rw [ih]

theorem str_contains_eq_literal (s pat : String)
    (h : ∀ c ∈ pat.data, isMeta c = false) :
    str_contains s pat = literalContains s.data pat.data :=
  reSearch_literal pat.data h s.data

theorem topicPattern_no_meta (t : String) (h : ∀ c ∈ t.data, isMeta c = false) :
    ∀ c ∈ ("Topic_" ++ t).data, isMeta c = false := by
  intro c hc
  rw [String.data_append] at hc
  rcases List.mem_append.mp hc with hc1 | hc2
  · revert hc1
    have : ∀ c ∈ ("Topic_" : String).data, isMeta c = false := by decide
    exact this c
  · exact h c hc2

/- ### Lemmas: first-occurrence deduplication -/

theorem mem_uniqueAux (x : String) : ∀ (l seen : List String),
    x ∈ uniqueAux seen l ↔ x ∈ l ∧ x ∉ seen := by
  intro l
  induction l with
  | nil => intro seen; simp [uniqueAux]
  | cons a l ih =>
    intro seen
    simp only [uniqueAux]
    by_cases ha : a ∈ seen
    · rw [if_pos ha, ih]
      simp only [List.mem_cons]
      constructor
      · rintro ⟨h1, h2⟩; exact ⟨Or.inr h1, h2⟩
      · rintro ⟨h1 | h1, h2⟩
        · exact absurd (h1 ▸ ha) h2
        · exact ⟨h1, h2⟩
    · rw [if_neg ha]
      simp only [List.mem_cons, ih, List.mem_cons, not_or]
      constructor
      · rintro (rfl | ⟨h1, h2, h3⟩)
        · exact ⟨Or.inl rfl, ha⟩
        · exact ⟨Or.inr h1, h3⟩
      · rintro ⟨h1 | h1, h2⟩
        · exact Or.inl h1
        · by_cases hxa : x = a
          · exact Or.inl hxa
          · exact Or.inr ⟨h1, hxa, h2⟩

theorem nodup_uniqueAux : ∀ (l seen : List String), (uniqueAux seen l).Nodup := by
  intro l
  induction l with
  | nil => intro seen; simp [uniqueAux]
  | cons a l ih =>
    intro seen
    simp only [uniqueAux]
    by_cases ha : a ∈ seen
    · rw [if_pos ha]; exact ih seen
    · rw [if_neg ha]
      refine List.nodup_cons.mpr ⟨?_, ih (a :: seen)⟩
      intro hmem
      rcases (mem_uniqueAux a l (a :: seen)).mp hmem with ⟨_, h2⟩
      exact h2 (List.mem_cons_self a seen)

/- ### Lemmas: the recommendation resolver -/

theorem mem_get_recommendations (s t : String) (df : List Attempt)
    (rules : List Rule) :
    t ∈ get_recommendations s df rules ↔
      ((∃ a ∈ df, a.student_id = s ∧ a.is_correct = 0 ∧ a.topic = t) ∧
       ∃ ru ∈ rules, str_contains ru.antecedents ("Topic_" ++ t) = true) := by
  unfold get_recommendations uniqueKeepFirst
  rw [List.mem_filter, mem_uniqueAux]
  simp only [List.mem_map, List.mem_filter, Bool.and_eq_true, beq_iff_eq,
    List.not_mem_nil, not_false_iff, and_true, List.any_eq_true]
  constructor
  · rintro ⟨⟨a, ⟨ha1, ha2, ha3⟩, ha4⟩, ru, hru, hc⟩
    exact ⟨⟨a, ha1, ha2, ha3, ha4⟩, ru, hru, hc⟩
  · rintro ⟨⟨a, ha1, ha2, ha3, ha4⟩, ru, hru, hc⟩
    exact ⟨⟨a, ⟨ha1, ha2, ha3⟩, ha4⟩, ru, hru, hc⟩

/- ### Claim C2 -/

/-- C2 counterexample: the claim says rule matching is containment of the
literal substring `"Topic_" ++ t` with every character of the topic name
taken literally.  False: the pattern is interpreted as a regular expression
(pandas default), so for the weak topic `"A.B"` the rule whose antecedents
field is `"Topic_AXB"` matches — the topic is recommended — although no
antecedent contains the literal substring `"Topic_A.B"`. -/
theorem claim_C2_counterexample :
    get_recommendations "S1"
        [⟨"S1", "Q1", "A.B", "Easy", "MCQ", "x", "y", 0, 0, 30⟩]
        [⟨"Topic_AXB"⟩] = ["A.B"]
    ∧ literalContains "Topic_AXB".data ("Topic_" ++ "A.B").data = false :=
  ⟨by decide, by decide⟩

/-- C2 (amended): the resolver tests each rule's antecedents by searching for
the pattern `"Topic_" ++ t` interpreted as a regular expression (the pandas
`str.contains` default), case-sensitively, so regex metacharacters in the
topic name can change whether a rule matches (the counterexample shows one);
whenever the topic name is free of every Python regex metacharacter (the
`isMeta` set: `. + * ? | ( ) [ ]`, the braces, `^ $ \`), the test coincides
with literal character-for-character substring containment. -/
theorem claim_C2_literal_match_on_plain_topics (t : String) (ru : Rule)
    (h : ∀ c ∈ t.data, isMeta c = false) :
    str_contains ru.antecedents ("Topic_" ++ t)
      = literalContains ru.antecedents.data ("Topic_" ++ t).data :=
  str_contains_eq_literal _ _ (topicPattern_no_meta t h)

/-- C2 witness: the amended theorem applied at a concrete rule and topic. -/
theorem claim_C2_witness :
    str_contains "rule about Topic_Algebra and more" ("Topic_" ++ "Algebra")
      = literalContains "rule about Topic_Algebra and more".data
          ("Topic_" ++ "Algebra").data :=
  claim_C2_literal_match_on_plain_topics "Algebra"
    ⟨"rule about Topic_Algebra and more"⟩ (by decide)

/- ### Claim C3 -/

/-- C3: every topic the resolver returns is one on which the student has at
least one attempt row with `is_correct = 0`; a student all of whose attempts
are correct (or who has none) gets the empty result; and the returned list
contains no topic twice. -/
theorem claim_C3_recommendations_sound (s : String) (df : List Attempt)
    (rules : List Rule) :
    (∀ t ∈ get_recommendations s df rules,
        ∃ a ∈ df, a.student_id = s ∧ a.topic = t ∧ a.is_correct = 0)
    ∧ ((∀ a ∈ df, a.student_id = s → a.is_correct ≠ 0) →
        get_recommendations s df rules = [])
    ∧ (get_recommendations s df rules).Nodup := by
  refine ⟨?_, ?_, ?_⟩
  · intro t ht
    rcases (mem_get_recommendations s t df rules).mp ht with ⟨⟨a, h1, h2, h3, h4⟩, _⟩
    exact ⟨a, h1, h2, h4, h3⟩
  · intro h
    rw [List.eq_nil_iff_forall_not_mem]
    intro t ht
    rcases (mem_get_recommendations s t df rules).mp ht with ⟨⟨a, h1, h2, h3, _⟩, _⟩
    exact h a h1 h2 h3
  · exact List.Nodup.filter _ (nodup_uniqueAux _ _)

/-- C3 witness: a student whose only attempt is correct gets no
recommendations. -/
theorem claim_C3_witness :
    get_recommendations "S1"
      [⟨"S1", "Q1", "Algebra", "Easy", "MCQ", "x", "x", 1, 1, 30⟩,
       ⟨"S2", "Q2", "Geometry", "Easy", "MCQ", "x", "y", 0, 0, 30⟩]
      [⟨"Topic_Algebra"⟩] = [] :=
  (claim_C3_recommendations_sound "S1" _ _).2.1 (by decide)

/- ### Claim C4 -/

/-- C4 counterexample: the claim says an incorrect attempt on topic T plus a
rule whose antecedents contains the substring `"Topic_T"` forces T into the
result, for every topic T.  False for `T = "A+B"`: the antecedents string
`"Topic_A+B"` contains the literal substring `"Topic_A+B"`, the student has
an incorrect attempt on the topic, yet the resolver returns nothing, because
the pattern is interpreted as a regex in which `A+` means one or more `A`. -/
theorem claim_C4_counterexample :
    literalContains "Topic_A+B".data ("Topic_" ++ "A+B").data = true
    ∧ ([(⟨"S1", "Q1", "A+B", "Easy", "MCQ", "x", "y", 0, 0, 30⟩ : Attempt)].any
        (fun a => a.student_id == "S1" && a.topic == "A+B" && a.is_correct == 0))
        = true
    ∧ get_recommendations "S1"
        [⟨"S1", "Q1", "A+B", "Easy", "MCQ", "x", "y", 0, 0, 30⟩]
        [⟨"Topic_A+B"⟩] = [] :=
  ⟨by decide, by decide, by decide⟩

/-- C4 (amended): for every topic T whose name is free of every Python regex
metacharacter (the `isMeta` set: `. + * ? | ( ) [ ]`, the braces, `^ $ \`),
if the student has an attempt row on T with `is_correct = 0` and some rule's
antecedents contains the literal substring `"Topic_" ++ T`, then the
resolver's result includes T. -/
theorem claim_C4_recommendation_complete_plain (s T : String)
    (df : List Attempt) (rules : List Rule)
    (hm : ∀ c ∈ T.data, isMeta c = false)
    (ha : ∃ a ∈ df, a.student_id = s ∧ a.topic = T ∧ a.is_correct = 0)
    (hr : ∃ ru ∈ rules,
        literalContains ru.antecedents.data ("Topic_" ++ T).data = true) :
    T ∈ get_recommendations s df rules := by
  rw [mem_get_recommendations]
  obtain ⟨a, ha1, ha2, ha3, ha4⟩ := ha
  obtain ⟨ru, hr1, hr2⟩ := hr
  refine ⟨⟨a, ha1, ha2, ha4, ha3⟩, ru, hr1, ?_⟩
  rw [str_contains_eq_literal _ _ (topicPattern_no_meta T hm)]
  exact hr2

/-- C4 witness: the amended theorem applied at a concrete table. -/
theorem claim_C4_witness :
    "Algebra" ∈ get_recommendations "S1"
      [⟨"S1", "Q1", "Algebra", "Easy", "MCQ", "x", "y", 0, 0, 30⟩]
      [⟨"see Topic_Algebra here"⟩] :=
  claim_C4_recommendation_complete_plain "S1" "Algebra" _ _
    (by decide) (by decide) (by decide)

/- ### Claim C8 -/

/-- C8: the exam's candidate rows are exactly the pool rows whose topic is in
the resolver's result when that result is non-empty, and the full pool (all
distinct topics of the pool) when the resolver returns the empty set, which
is treated as a fallback signal rather than an error. -/
theorem claim_C8_candidate_policy (s : String) (df : List Attempt)
    (rules : List Rule) :
    examCandidates s df rules =
      if (get_recommendations s df rules).isEmpty then df
      else df.filter (fun row =>
        (get_recommendations s df rules).contains row.topic) := by
  unfold examCandidates
  cases h : (get_recommendations s df rules).isEmpty with
  | true =>
    simp only [h, if_true]
    apply List.filter_eq_self.mpr
    intro a ha
    have hm : a.topic ∈ uniqueKeepFirst (df.map (fun a => a.topic)) := by
      unfold uniqueKeepFirst
      rw [mem_uniqueAux]
      exact ⟨List.mem_map_of_mem _ ha, List.not_mem_nil _⟩
    exact List.elem_iff.mpr hm
  | false =>
    have hne : get_recommendations s df rules ≠ [] := by
      intro hnil
      rw [hnil] at h
      simp at h
    simp [hne]

/- ### Claim C1 -/

/-- C1: the claim says the sample size is clamped to the candidate count so
sampling never raises.  The code (src/app.py line 280) instead clamps by the
length of the full table — `sample(min(5, len(df)))` on the filtered
candidate frame — so when the recommended topics cover fewer than
`min(5, len(df))` rows, pandas raises `ValueError` (embedded as `none`).
Concretely: a six-row table in which student S1 has two incorrect Algebra
rows and four correct Geometry rows, with a rule matching Topic_Algebra,
yields a two-row candidate frame and a requested sample of five, for every
randomness stream. -/
theorem claim_C1_sampling_raises (r : Nat → Nat) :
    examQuestions "S1"
      [⟨"S1", "Q1", "Algebra", "Easy", "MCQ", "x", "y", 0, 0, 30⟩,
       ⟨"S1", "Q2", "Algebra", "Easy", "MCQ", "x", "y", 0, 0, 30⟩,
       ⟨"S1", "Q3", "Geometry", "Easy", "MCQ", "x", "x", 1, 1, 30⟩,
       ⟨"S1", "Q4", "Geometry", "Easy", "MCQ", "x", "x", 1, 1, 30⟩,
       ⟨"S1", "Q5", "Geometry", "Easy", "MCQ", "x", "x", 1, 1, 30⟩,
       ⟨"S1", "Q6", "Geometry", "Easy", "MCQ", "x", "x", 1, 1, 30⟩]
      [⟨"Topic_Algebra"⟩] r = none := by
  unfold examQuestions sampleRows
  rw [if_neg (by decide)]

/- ### Claim C10 -/

theorem countRow_eraseIdx (x : Attempt) :
    ∀ (l : List Attempt) (k : Nat) (v : Attempt), l.get? k = some v →
      countRow x l = countRow x (l.eraseIdx k) + (if v = x then 1 else 0) := by
  intro l
  induction l with
  | nil => intro k v h; cases k <;> simp [List.get?] at h
  | cons a l ih =>
    intro k v h
    cases k with
    | zero =>
      simp only [List.get?] at h
      injection h with h
      subst h
      simp [countRow, List.eraseIdx, Nat.add_comm]
    | succ k =>
      simp only [List.get?] at h
      simp only [countRow, List.eraseIdx]
      rw [ih k v h]
      ring

theorem countRow_cons (x a : Attempt) (l : List Attempt) :
    countRow x (a :: l) = (if a = x then 1 else 0) + countRow x l :=
  rfl

theorem countRow_drawSample (r : Nat → Nat) (x : Attempt) :
    ∀ (n i : Nat) (rows : List Attempt),
      countRow x (drawSample r i n rows) ≤ countRow x rows := by
  intro n
  induction n with
  | zero => intro i rows; simp [drawSample, countRow]
  | succ m ih =>
    intro i rows
    cases rows with
    | nil => simp [drawSample, countRow]
    | cons a as =>
      have hk : r i % (a :: as).length < (a :: as).length :=
        Nat.mod_lt _ (by simp)
      have hv : (a :: as).getD (r i % (a :: as).length) a
          = (a :: as).get ⟨r i % (a :: as).length, hk⟩ := by
        simp only [List.getD_eq_getElem?_getD, List.getElem?_eq_getElem hk,
          Option.getD_some, List.get_eq_getElem]
      have hsplit := countRow_eraseIdx x (a :: as) (r i % (a :: as).length)
        ((a :: as).get ⟨r i % (a :: as).length, hk⟩) (List.get?_eq_get hk)
      have hrec := ih (i + 1) ((a :: as).eraseIdx (r i % (a :: as).length))
      simp only [drawSample, hv]
      rw [countRow_cons, hsplit]
      generalize (if (a :: as).get ⟨r i % (a :: as).length, hk⟩ = x then 1 else 0) = A
      omega

/-- C10: sampling is without replacement over rows of the attempt log — the
multiplicity of any row in a drawn sample never exceeds its multiplicity in
the pool — yet it is not over distinct questions: for a pool holding two
distinct attempt rows with the same `question_id`, one session can contain
both rows, and the submission then scores and appends that `question_id`
twice. -/
theorem claim_C10_sampling_over_rows :
    (∀ (r : Nat → Nat) (n i : Nat) (rows : List Attempt) (x : Attempt),
        countRow x (drawSample r i n rows) ≤ countRow x rows)
    ∧ examQuestions "S1"
        [⟨"S1", "Q1", "Algebra", "Easy", "MCQ", "a", "y", 0, 0, 20⟩,
         ⟨"S1", "Q1", "Algebra", "Easy", "MCQ", "b", "y", 0, 0, 30⟩]
        [] (fun _ => 0)
        = some [⟨"S1", "Q1", "Algebra", "Easy", "MCQ", "a", "y", 0, 0, 20⟩,
                ⟨"S1", "Q1", "Algebra", "Easy", "MCQ", "b", "y", 0, 0, 30⟩]
    ∧ (new_rows "S1" (fun _ => "Option A") (fun _ => 0) 0
          [⟨"S1", "Q1", "Algebra", "Easy", "MCQ", "a", "y", 0, 0, 20⟩,
           ⟨"S1", "Q1", "Algebra", "Easy", "MCQ", "b", "y", 0, 0, 30⟩]).map
        (fun row => row.question_id) = ["Q1", "Q1"] :=
  ⟨fun r n i rows x => countRow_drawSample r x n i rows, by decide, by decide⟩

/- ### Lemmas: submission -/

theorem new_rows_length (student : String) (answers : Nat → String)
    (r : Nat → Nat) : ∀ (qs : List Attempt) (i : Nat),
    (new_rows student answers r i qs).length = qs.length := by
  intro qs
  induction qs with
  | nil => intro i; rfl
  | cons q qs ih => intro i; simp [new_rows, ih (i + 1)]

theorem new_rows_get? (student : String) (answers : Nat → String)
    (r : Nat → Nat) : ∀ (qs : List Attempt) (i j : Nat),
    (new_rows student answers r i qs).get? j
      = (qs.get? j).map (fun q => newRow student q (answers (i + j)) (r (i + j))) := by
  intro qs
  induction qs with
  | nil => intro i j; simp [new_rows]
  | cons q qs ih =>
    intro i j
    cases j with
    | zero => simp [new_rows]
    | succ j =>
      simp only [new_rows, List.get?]
      rw [ih (i + 1) j]
      have harith : i + 1 + j = i + (j + 1) := by omega
      rw [harith]

theorem mem_new_rows (student : String) (answers : Nat → String)
    (r : Nat → Nat) : ∀ (qs : List Attempt) (i : Nat) (row : Attempt),
    row ∈ new_rows student answers r i qs →
    ∃ q j, row = newRow student q (answers j) (r j) := by
  intro qs
  induction qs with
  | nil => intro i row h; simp [new_rows] at h
  | cons q qs ih =>
    intro i row h
    simp only [new_rows, List.mem_cons] at h
    rcases h with rfl | h
    · exact ⟨q, i, rfl⟩
    · exact ih (i + 1) row h

theorem correct_count_le (answers : Nat → String) :
    ∀ (qs : List Attempt) (i : Nat), correct_count answers i qs ≤ qs.length := by
  intro qs
  induction qs with
  | nil => intro i; simp [correct_count]
  | cons q qs ih =>
    intro i
    simp only [correct_count, List.length_cons]
    have := ih (i + 1)
    split <;> omega

theorem randint_mem (lo hi t : Nat) (h : lo ≤ hi) :
    lo ≤ randint lo hi t ∧ randint lo hi t ≤ hi := by
  unfold randint
  have hm : t % (hi - lo + 1) < hi - lo + 1 := Nat.mod_lt _ (by omega)
  omega

/- ### Claim C5 -/

/-- C5: on submission, each question's correctness is exact string equality
of the selected answer with the stored `correct_answer`; each synthesized
row has `score` equal to `is_correct`, both in `{0, 1}`; the correct count
is at most the session size; and the reported score is
`100 × correctCount / n`. -/
theorem claim_C5_submission_scoring (student : String) (qs : List Attempt)
    (answers : Nat → String) (r : Nat → Nat) :
    correct_count answers 0 qs ≤ qs.length
    ∧ (∀ j, (new_rows student answers r 0 qs).get? j
        = (qs.get? j).map (fun q => newRow student q (answers j) (r j)))
    ∧ (∀ (q : Attempt) (a : String) (t : Nat),
        (newRow student q a t).is_correct
            = (if a == q.correct_answer then 1 else 0)
        ∧ (newRow student q a t).score = (newRow student q a t).is_correct)
    ∧ (∀ row ∈ new_rows student answers r 0 qs,
        row.score = row.is_correct ∧ (row.is_correct = 0 ∨ row.is_correct = 1))
    ∧ exam_score (correct_count answers 0 qs) qs.length
        = 100 * (correct_count answers 0 qs : ℚ) / (qs.length : ℚ) := by
  refine ⟨correct_count_le answers qs 0, ?_, ?_, ?_, ?_⟩
  · intro j
    simpa using new_rows_get? student answers r qs 0 j
  · intro q a t
    exact ⟨rfl, rfl⟩
  · intro row hrow
    rcases mem_new_rows student answers r qs 0 row hrow with ⟨q, j, rfl⟩
    refine ⟨rfl, ?_⟩
    unfold newRow
    dsimp only
    split <;> simp
  · unfold exam_score
    ring

/-- C5 witness: the per-row facts of the theorem applied to the single row
synthesized from a one-question session. -/
theorem claim_C5_witness :
    (newRow "S1" ⟨"S1", "Q1", "Algebra", "Easy", "MCQ", "x", "Option A", 0, 0, 30⟩
        "Option A" 7).score
      = (newRow "S1" ⟨"S1", "Q1", "Algebra", "Easy", "MCQ", "x", "Option A", 0, 0, 30⟩
        "Option A" 7).is_correct
    ∧ ((newRow "S1" ⟨"S1", "Q1", "Algebra", "Easy", "MCQ", "x", "Option A", 0, 0, 30⟩
        "Option A" 7).is_correct = 0
      ∨ (newRow "S1" ⟨"S1", "Q1", "Algebra", "Easy", "MCQ", "x", "Option A", 0, 0, 30⟩
        "Option A" 7).is_correct = 1) :=
  (claim_C5_submission_scoring "S1"
      [⟨"S1", "Q1", "Algebra", "Easy", "MCQ", "x", "Option A", 0, 0, 30⟩]
      (fun _ => "Option A") (fun _ => 7)).2.2.2.1 _ (by decide)

/- ### Claim C6 -/

/-- C6: appending the synthesized rows of a submission and reloading the
store yields the original row count plus the session size; the row appended
for question `j` sits at position `df.length + j` and all its descriptive
fields equal the submitted values; and every appended row's `time_spent`
lies in `[15, 60]`. -/
theorem claim_C6_round_trip (student : String) (df qs : List Attempt)
    (answers : Nat → String) (r : Nat → Nat) :
    (read_csv (to_csv (pd_concat df (new_rows student answers r 0 qs)))).length
        = df.length + qs.length
    ∧ (∀ j, (read_csv (to_csv (pd_concat df
          (new_rows student answers r 0 qs)))).get? (df.length + j)
        = (qs.get? j).map (fun q => newRow student q (answers j) (r j)))
    ∧ (∀ (q : Attempt) (a : String) (t : Nat),
        (newRow student q a t).student_id = student
        ∧ (newRow student q a t).question_id = q.question_id
        ∧ (newRow student q a t).topic = q.topic
        ∧ (newRow student q a t).difficulty = q.difficulty
        ∧ (newRow student q a t).question_type = q.question_type
        ∧ (newRow student q a t).student_answer = a
        ∧ (newRow student q a t).correct_answer = q.correct_answer)
    ∧ (∀ row ∈ new_rows student answers r 0 qs,
        15 ≤ row.time_spent ∧ row.time_spent ≤ 60) := by
  refine ⟨?_, ?_, ?_, ?_⟩
  · unfold read_csv to_csv pd_concat
    rw [List.length_append, new_rows_length]
  · intro j
    unfold read_csv to_csv pd_concat
    rw [List.get?_eq_getElem?, List.getElem?_append_right (Nat.le_add_right _ _)]
    simp only [Nat.add_sub_cancel_left]
    simpa using new_rows_get? student answers r qs 0 j
  · intro q a t
    exact ⟨rfl, rfl, rfl, rfl, rfl, rfl, rfl⟩
  · intro row hrow
    rcases mem_new_rows student answers r qs 0 row hrow with ⟨q, j, rfl⟩
    exact randint_mem 15 60 (r j) (by omega)

/-- C6 witness: the time-spent bound of the theorem applied to the single
row synthesized from a one-question session. -/
theorem claim_C6_witness :
    15 ≤ (newRow "S1" ⟨"S1", "Q1", "Algebra", "Easy", "MCQ", "x", "y", 0, 0, 30⟩
        "Option A" 7).time_spent
    ∧ (newRow "S1" ⟨"S1", "Q1", "Algebra", "Easy", "MCQ", "x", "y", 0, 0, 30⟩
        "Option A" 7).time_spent ≤ 60 :=
  (claim_C6_round_trip "S1" []
      [⟨"S1", "Q1", "Algebra", "Easy", "MCQ", "x", "y", 0, 0, 30⟩]
      (fun _ => "Option A") (fun _ => 7)).2.2.2 _ (by decide)

/- ### Claim C7 -/

/-- C7: the Attempt Store is append-only — after a submission every row that
was in the table is still there, unchanged and in the same relative order
(the old table is a prefix of the new one), and the submission contributes
only appended rows. -/
theorem claim_C7_append_only (student : String) (df qs : List Attempt)
    (answers : Nat → String) (r : Nat → Nat) :
    (pd_concat df (new_rows student answers r 0 qs)).take df.length = df
    ∧ df <+: pd_concat df (new_rows student answers r 0 qs) :=
  ⟨List.take_left df _, ⟨new_rows student answers r 0 qs, rfl⟩⟩

/- ### Claim C9 -/

/-- C9: an entered identifier absent from the attempt log's `student_id`
column is rejected with the error message and nothing further is computed
for the request; an identifier that occurs proceeds past the login guard to
the requested page's computation. -/
theorem claim_C9_login_guard (sid : String) (df : List Attempt)
    (rules : List Rule) (page : Page) (r : Nat → Nat) (h : sid ≠ "") :
    (runApp sid df rules page r = Except.error invalidStudentMsg
      ↔ (df.map (fun a => a.student_id)).contains sid = false)
    ∧ (runApp sid df rules page r
        = Except.ok (some (renderPage sid df rules page r))
      ↔ (df.map (fun a => a.student_id)).contains sid = true) := by
  unfold runApp
  rw [if_neg h]
  cases hc : (df.map (fun a => a.student_id)).contains sid with
  | true => simp [hc]
  | false => simp [hc]

/-- C9 witness: the unknown identifier S999 is rejected. -/
theorem claim_C9_witness :
    runApp "S999" [⟨"S12", "Q1", "Algebra", "Easy", "MCQ", "x", "y", 0, 0, 30⟩]
      [⟨"Topic_Algebra"⟩] Page.dashboard (fun _ => 0)
      = Except.error invalidStudentMsg :=
  ((claim_C9_login_guard "S999" _ _ Page.dashboard (fun _ => 0)
      (by decide)).1).mpr (by decide)

end PersonalizedExam
